import Mathlib

/-!
Verification development for the web-delta migration comparator.

The JavaScript sources define two classes, `SimpleMigrationComparator`
(page-budgeted crawl, 9-field extraction schema) and `MigrationComparator`
(unbudgeted crawl, 14-field extraction schema).  This file gives a shallow
embedding of their pure core: the JS string primitives the code relies on
(`String.prototype.replace` with its `$`-substitution patterns,
`String.prototype.startsWith`, the `[^a-zA-Z0-9] -> '_'` key sanitizer),
the crawl loop over an abstract page renderer, the DOM field extraction
over an abstract parsed document, the field differ, and the
reconciliation/aggregation pipeline of `compareWebsites`.
-/

/-! ## JS string primitives -/

/-- `pfxCheck pre l` decides whether the character list `l` starts with `pre`. -/
def pfxCheck : List Char → List Char → Bool
  | [], _ => true
  | _ :: _, [] => false
  | a :: as, b :: bs => if a = b then pfxCheck as bs else false

/-- Model of JS `s.startsWith(pre)` (used by the crawl guards and link filters). -/
def jsStartsWith (s pre : String) : Bool :=
  pfxCheck pre.data s.data

/-- Model of JS `hay.indexOf(needle)`: index of the first occurrence, `none` if absent. -/
def firstOcc (needle : List Char) : List Char → Option Nat
  | [] => if pfxCheck needle [] then some 0 else none
  | c :: t =>
    if pfxCheck needle (c :: t) then some 0
    else (firstOcc needle t).map (· + 1)

def dollarChar : Char := '$'

def ampChar : Char := '&'

def graveChar : Char := Char.ofNat 96

def aposChar : Char := Char.ofNat 39

/-- ECMA-262 `GetSubstitution` restricted to a string search value (no capture
groups): in the replacement text, `$$` yields `$`, `$&` the matched text,
`$` followed by the grave accent the text before the match, `$` followed by
the apostrophe the text after the match; any other `$` is literal. -/
def substApply (matched before after : List Char) : List Char → List Char
  | [] => []
  | [c] => [c]
  | c :: d :: rest =>
    if c = dollarChar then
      if d = dollarChar then dollarChar :: substApply matched before after rest
      else if d = ampChar then matched ++ substApply matched before after rest
      else if d = graveChar then before ++ substApply matched before after rest
      else if d = aposChar then after ++ substApply matched before after rest
      else c :: substApply matched before after (d :: rest)
    else c :: substApply matched before after (d :: rest)

/-- `true` when two consecutive characters form one of the `$`-substitution
marks interpreted by `substApply`. -/
def isSubstMark (c d : Char) : Bool :=
  if c = dollarChar then
    if d = dollarChar then true
    else if d = ampChar then true
    else if d = graveChar then true
    else if d = aposChar then true
    else false
  else false

/-- The replacement text contains no `$`-substitution pattern, so
`substApply` leaves it unchanged. -/
def noSubstPattern : List Char → Bool
  | [] => true
  | [_] => true
  | c :: d :: rest => if isSubstMark c d then false else noSubstPattern (d :: rest)

/-- Character-list level model of JS `s.replace(search, repl)` with string
arguments: replace the first occurrence of `search`, applying
`GetSubstitution` to the replacement text. -/
def jsReplaceL (s search repl : List Char) : List Char :=
  match firstOcc search s with
  | none => s
  | some i =>
      s.take i ++ substApply search (s.take i) (s.drop (i + search.length)) repl
        ++ s.drop (i + search.length)

/-- Model of JS `s.replace(search, repl)` for string arguments, as used by the
URL reconciler (`url.replace(this.oldDomain, this.newDomain)`). -/
def jsReplace (s search repl : String) : String :=
  ⟨jsReplaceL s.data search.data repl.data⟩

/-- A character kept verbatim by the snapshot key sanitizer: `[a-zA-Z0-9]`. -/
def isUrlKeyChar (c : Char) : Bool :=
  ('a' ≤ c && c ≤ 'z') || ('A' ≤ c && c ≤ 'Z') || ('0' ≤ c && c ≤ '9')

/-- Model of `url.replace(/[^a-zA-Z0-9]/g, '_')`: every character outside
`[a-zA-Z0-9]` becomes an underscore. -/
def sanitizeKey (s : String) : String :=
  ⟨s.data.map (fun c => if isUrlKeyChar c then c else '_')⟩

/-! ## JS collections -/

/-- JS `Set.prototype.add` on an insertion-ordered list of strings. -/
def setAdd (xs : List String) (x : String) : List String :=
  if xs.contains x then xs else xs ++ [x]

/-- `[...new Set(xs)]`: deduplication keeping first occurrences, in order. -/
def dedupFirst (xs : List String) : List String :=
  xs.foldl setAdd []

/-- JS object property assignment `m[k] = v` on an insertion-ordered
association list: overwrite the value if the key exists, else append. -/
def objAssign (m : List (String × String)) (k v : String) : List (String × String) :=
  if (m.map Prod.fst).contains k then
    m.map (fun kv => if kv.1 = k then (k, v) else kv)
  else m ++ [(k, v)]

/-- JS object property read `m[k]`: `none` models `undefined`. -/
def objGet (m : List (String × String)) (k : String) : Option String :=
  m.lookup k

/-! ## DOM model and field extraction

`extractPageInfo` evaluates DOM queries inside a rendered page.  The browser
(HTML parsing, `page.setContent`) is external to the repository, so a parsed
document is modelled abstractly: a `title` and the list of elements in
document order, each with a tag name, attributes and text content.  A JS
field value is `Option String`: `some s` is the string `s`, `none` is `null`
(what `getAttribute` returns for an absent attribute). -/

structure DomElement where
  tag : String
  attrs : List (String × String)
  text : String
deriving DecidableEq

structure Dom where
  title : String
  elements : List DomElement
deriving DecidableEq

/-- `document.querySelector(sel)` for a plain tag selector (`h1`, `h2`,
`main`, `body`): the first element with that tag. -/
def queryTag (d : Dom) (sel : String) : Option DomElement :=
  d.elements.find? (fun e => e.tag == sel)

/-- `document.querySelector('meta[name="nm"], meta[property="nm"]')`: the
first `meta` element whose `name` or `property` attribute equals `nm`. -/
def queryMeta (d : Dom) (nm : String) : Option DomElement :=
  d.elements.find? (fun e =>
    e.tag == "meta" && (e.attrs.lookup "name" == some nm || e.attrs.lookup "property" == some nm))

/-- `getMetaContent(nm)` from the source: `meta ? meta.getAttribute('content')
: ''`.  An absent element yields the string `''`; a present element yields
its `content` attribute, which is `null` (`none`) when the attribute is
absent. -/
def getMetaContent (d : Dom) (nm : String) : Option String :=
  match queryMeta d nm with
  | none => some ""
  | some el => el.attrs.lookup "content"

/-- The string produced by `element.textContent.trim()` for the first element
matching `sel`, or `''` when there is none. -/
def textValue (d : Dom) (sel : String) : String :=
  match queryTag d sel with
  | none => ""
  | some el => el.text.trim

/-- `getTextContent(sel)` from the source: always a string, never `null`. -/
def getTextContent (d : Dom) (sel : String) : Option String :=
  some (textValue d sel)

/-- JS `a || b` on strings: the empty string is falsy. -/
def jsOr (a b : String) : String :=
  if a = "" then b else a

/-- How one extraction field is computed from the document. -/
inductive FieldKind where
  | titleK : FieldKind
  | metaK : String → FieldKind
  | textK : String → FieldKind
  | mainK : FieldKind
deriving DecidableEq

def evalField (d : Dom) : FieldKind → Option String
  | .titleK => some d.title
  | .metaK nm => getMetaContent d nm
  | .textK sel => getTextContent d sel
  | .mainK => some (jsOr (textValue d "main") (textValue d "body"))

/-- The object literal returned by `MigrationComparator.extractPageInfo`
(lines 524-539): 14 named fields in source order. -/
def fullSchema : List (String × FieldKind) :=
  [("title", .titleK),
   ("description", .metaK "description"),
   ("keywords", .metaK "keywords"),
   ("h1", .textK "h1"),
   ("h2", .textK "h2"),
   ("mainContent", .mainK),
   ("canonical", .metaK "canonical"),
   ("robots", .metaK "robots"),
   ("ogTitle", .metaK "og:title"),
   ("ogDescription", .metaK "og:description"),
   ("ogImage", .metaK "og:image"),
   ("twitterCard", .metaK "twitter:card"),
   ("twitterTitle", .metaK "twitter:title"),
   ("twitterDescription", .metaK "twitter:description")]

/-- The object literal returned by `SimpleMigrationComparator.extractPageInfo`
(lines 106-116): 9 named fields in source order. -/
def simpleSchema : List (String × FieldKind) :=
  [("title", .titleK),
   ("description", .metaK "description"),
   ("keywords", .metaK "keywords"),
   ("h1", .textK "h1"),
   ("h2", .textK "h2"),
   ("canonical", .metaK "canonical"),
   ("robots", .metaK "robots"),
   ("ogTitle", .metaK "og:title"),
   ("ogDescription", .metaK "og:description")]

/-- A JS object holding extracted fields: insertion-ordered keys with JS
string-or-null values. -/
def FieldRecord : Type := List (String × Option String)

deriving instance DecidableEq for FieldRecord

/-- The record built in the `try` branch of `extractPageInfo`. -/
def extractFromDom (schema : List (String × FieldKind)) (d : Dom) : FieldRecord :=
  schema.map (fun p => (p.1, evalField d p.2))

/-- The all-empty record returned by the `catch` branch of `extractPageInfo`. -/
def emptyRecordOf (schema : List (String × FieldKind)) : FieldRecord :=
  schema.map (fun p => (p.1, some ""))

/-- `MigrationComparator.extractPageInfo(html, url)`: the browser evaluation
of `html` is the external input (`some d` when `setContent`/`evaluate`
succeed with parsed document `d`, `none` when any step throws); the `catch`
branch substitutes the all-empty record. -/
def extractPageInfo (r : Option Dom) : FieldRecord :=
  match r with
  | some d => extractFromDom fullSchema d
  | none => emptyRecordOf fullSchema

/-- `SimpleMigrationComparator.extractPageInfo`: same shape over the reduced
9-field schema. -/
def simpleExtractPageInfo (r : Option Dom) : FieldRecord :=
  match r with
  | some d => extractFromDom simpleSchema d
  | none => emptyRecordOf simpleSchema

/-- JS property read `rec.f`: `none` models `undefined` (absent key),
`some none` models `null`, `some (some s)` the string `s`. -/
def getProp (rec : FieldRecord) (f : String) : Option (Option String) :=
  rec.lookup f

/-- The keys of a field record, in insertion order. -/
def recordKeys (rec : FieldRecord) : List String :=
  rec.map Prod.fst

/-- The tag queried for a field is absent from the document (for the
document title: no title element, so `document.title` is empty; for the main
content: neither a `main` nor a `body` element). -/
def tagAbsent (d : Dom) : FieldKind → Prop
  | .titleK => d.title = ""
  | .metaK nm => queryMeta d nm = none
  | .textK sel => queryTag d sel = none
  | .mainK => queryTag d "main" = none ∧ queryTag d "body" = none

/-! ## Field differ -/

/-- One entry of `differences.changes` as pushed by `compareField`. -/
structure FieldChange where
  field : String
  old : Option (Option String)
  new : Option (Option String)
  type : String
deriving DecidableEq

/-- The object returned by `comparePageInfo`. -/
structure ComparisonResult where
  url : String
  changes : List FieldChange
deriving DecidableEq

/-- `compareField(field, oldValue, newValue)`: push a change entry when the
values differ under JS strict inequality `!==`. -/
def compareFieldStep (oldInfo newInfo : FieldRecord) (acc : List FieldChange) (f : String) :
    List FieldChange :=
  let o := getProp oldInfo f
  let n := getProp newInfo f
  if o ≠ n then acc ++ [⟨f, o, n, "content_change"⟩] else acc

/-- `comparePageInfo(oldInfo, newInfo, url)`: compare the listed fields in
order, collecting the changes.  With `fullCompareFields` this is
`MigrationComparator.comparePageInfo` (lines 583-595), with
`simpleCompareFields` the simple variant (lines 155-163). -/
def comparePageInfo (fields : List String) (oldInfo newInfo : FieldRecord) (url : String) :
    ComparisonResult :=
  ⟨url, fields.foldl (compareFieldStep oldInfo newInfo) []⟩

/-- The 13 fields compared by `MigrationComparator.comparePageInfo`, in
source order. -/
def fullCompareFields : List String :=
  ["title", "description", "keywords", "h1", "h2", "canonical", "robots",
   "ogTitle", "ogDescription", "ogImage", "twitterCard", "twitterTitle",
   "twitterDescription"]

/-- The 9 fields compared by `SimpleMigrationComparator.comparePageInfo`. -/
def simpleCompareFields : List String :=
  ["title", "description", "keywords", "h1", "h2", "canonical", "robots",
   "ogTitle", "ogDescription"]

/-- Swapping the `old` and `new` values of a change entry. -/
def swapChange (c : FieldChange) : FieldChange :=
  ⟨c.field, c.new, c.old, c.type⟩

/-! ## Crawler -/

/-- The mutable state of one `crawlWebsite` session: the discovered URL set
`allUrls`, the `visitedUrls` set, the `htmlSnapshots` object, and the
`pageCount` counter.  `MigrationComparator.crawlWebsite` has no counter and
no budget; this is recovered below by `maxPages = none`, under which
`pageCount` never influences control flow. -/
structure CrawlState where
  allUrls : List String
  visited : List String
  snapshots : List (String × String)
  pageCount : Nat
deriving DecidableEq

/-- `pageCount >= maxPages` — always false in the unbudgeted variant. -/
def budgetExceeded : Option Nat → Nat → Bool
  | none, _ => false
  | some m, c => decide (m ≤ c)

/-- The early-return guard of `crawlPage`:
`visitedUrls.has(url) || !url.startsWith(baseUrl) || pageCount >= maxPages`. -/
def crawlGuard (baseUrl : String) (maxPages : Option Nat) (s : CrawlState) (url : String) : Bool :=
  s.visited.contains url || !(jsStartsWith url baseUrl) || budgetExceeded maxPages s.pageCount

/-- One renderer invocation: `some (html, links)` when `page.goto`,
`page.content` and the link-extraction `page.evaluate` succeed, `none` when
the per-page fetch/render fails (the `catch` branch). -/
def Renderer : Type := String → Option (String × List String)

/-- `crawlPage(url)` (full variant lines 449-501, simple variant lines
30-80): return early on the guard; otherwise mark the URL visited, render it
— on failure the state changes no further — store the snapshot under the
sanitized key, add the deduplicated `baseUrl`-filtered links to `allUrls`,
then recurse into each link that is still unvisited and within budget.
`fuel` bounds the recursion depth (the JS recursion is unbounded and
terminates only because sites are finite); every stated invariant holds for
every fuel. -/
def crawlPage (render : Renderer) (baseUrl : String) (maxPages : Option Nat) :
    Nat → CrawlState → String → CrawlState
  | 0, s, _ => s
  | fuel + 1, s, url =>
    if crawlGuard baseUrl maxPages s url then s
    else
      let s1 : CrawlState :=
        { s with visited := s.visited ++ [url], pageCount := s.pageCount + 1 }
      match render url with
      | none => s1
      | some (html, links) =>
        let pageUrls := (dedupFirst links).filter (fun u => jsStartsWith u baseUrl)
        let s2 : CrawlState :=
          { s1 with
            snapshots := objAssign s1.snapshots (sanitizeKey url) html
            allUrls := pageUrls.foldl setAdd s1.allUrls }
        pageUrls.foldl
          (fun st u =>
            if !(st.visited.contains u) && !(budgetExceeded maxPages st.pageCount) then
              crawlPage render baseUrl maxPages fuel st u
            else st)
          s2

def initialCrawlState : CrawlState := ⟨[], [], [], 0⟩

/-- `crawlWebsite(baseUrl, maxPages)`: run `crawlPage` from the empty session
state at `baseUrl`. -/
def crawlWebsite (render : Renderer) (baseUrl : String) (maxPages : Option Nat) (fuel : Nat) :
    CrawlState :=
  crawlPage render baseUrl maxPages fuel initialCrawlState baseUrl

/-- The value returned by `crawlWebsite`:
`{ urls: Array.from(allUrls), snapshots: htmlSnapshots }`. -/
structure CrawlData where
  urls : List String
  snapshots : List (String × String)
deriving DecidableEq

def crawlResult (s : CrawlState) : CrawlData :=
  ⟨s.allUrls, s.snapshots⟩

/-! ## Reconciliation, comparison loop and aggregation -/

structure Summary where
  oldWebsiteUrls : Nat
  newWebsiteUrls : Nat
  missingUrls : Nat
  newUrls : Nat
  pagesWithChanges : Nat
deriving DecidableEq

/-- The `results` object of `compareWebsites` (its pure part: `testInfo`
metadata such as timestamps is external).  `seoImpact` is a JS object; it is
kept as an insertion-ordered association list of its keys. -/
structure Results where
  summary : Summary
  missingUrls : List String
  newUrls : List String
  pageComparisons : List ComparisonResult
  seoImpact : List (String × Nat)
deriving DecidableEq

/-- `if (comparison.changes.length > 0) pageComparisons.push(comparison)`
(lines 654-656): keep a comparison only when it has at least one change. -/
def keepNonEmpty (acc : List ComparisonResult) (c : ComparisonResult) : List ComparisonResult :=
  if c.changes ≠ [] then acc ++ [c] else acc

/-- One iteration of the `for (const oldUrl of commonUrls)` loop (lines
644-658): look up both snapshots by sanitized key; when both are truthy
(present and non-empty), extract and compare, and keep the comparison only
when it has at least one change.  `parse` is the external browser evaluation
feeding `extractPageInfo`. -/
def comparisonStep (parse : String → Option Dom) (oldDomain newDomain : String)
    (oldSnaps newSnaps : List (String × String)) (acc : List ComparisonResult)
    (oldUrl : String) : List ComparisonResult :=
  let newUrl := jsReplace oldUrl oldDomain newDomain
  match objGet oldSnaps (sanitizeKey oldUrl), objGet newSnaps (sanitizeKey newUrl) with
  | some oldHtml, some newHtml =>
    if oldHtml ≠ "" ∧ newHtml ≠ "" then
      keepNonEmpty acc
        (comparePageInfo fullCompareFields (extractPageInfo (parse oldHtml))
          (extractPageInfo (parse newHtml)) newUrl)
    else acc
  | _, _ => acc

def comparisonsFor (parse : String → Option Dom) (oldDomain newDomain : String)
    (oldSnaps newSnaps : List (String × String)) (commonUrls : List String) :
    List ComparisonResult :=
  commonUrls.foldl (comparisonStep parse oldDomain newDomain oldSnaps newSnaps) []

/-- The three per-field page counts of the `seoImpact` object (lines
678-688). -/
def seoImpactOf (pageComparisons : List ComparisonResult) : List (String × Nat) :=
  [("pagesWithTitleChanges",
     (pageComparisons.filter (fun p => p.changes.any (fun c => c.field == "title"))).length),
   ("pagesWithDescriptionChanges",
     (pageComparisons.filter (fun p => p.changes.any (fun c => c.field == "description"))).length),
   ("pagesWithCanonicalChanges",
     (pageComparisons.filter (fun p => p.changes.any (fun c => c.field == "canonical"))).length)]

/-- Modelled from the spec: the `fieldImpact` of a field is "the count of
`ComparisonResult`s containing a change to that field".  The spec's report
aggregation promises this count for each tracked field; the code's
`seoImpact` object is compared against it. -/
def specFieldImpact (rs : List ComparisonResult) (f : String) : Nat :=
  rs.countP (fun r => r.changes.any (fun c => c.field == f))

/-- The pure reconciliation/comparison/aggregation tail of
`MigrationComparator.compareWebsites` (lines 628-689), parameterized by the
two crawl results and the external browser evaluation `parse` used by
`extractPageInfo`. -/
def compareWebsitesCore (parse : String → Option Dom) (oldDomain newDomain : String)
    (oldData newData : CrawlData) : Results :=
  let oldUrlsConverted := oldData.urls.map (fun u => jsReplace u oldDomain newDomain)
  let missingUrls := oldUrlsConverted.filter (fun u => !(newData.urls.contains u))
  let newUrls := newData.urls.filter (fun u => !(oldUrlsConverted.contains u))
  let commonUrls :=
    oldData.urls.filter (fun u => newData.urls.contains (jsReplace u oldDomain newDomain))
  let pageComparisons :=
    comparisonsFor parse oldDomain newDomain oldData.snapshots newData.snapshots commonUrls
  { summary :=
      ⟨oldData.urls.length, newData.urls.length, missingUrls.length, newUrls.length,
        pageComparisons.length⟩
    missingUrls := missingUrls
    newUrls := newUrls
    pageComparisons := pageComparisons
    seoImpact := seoImpactOf pageComparisons }

/-! ## Concrete fixtures used by closed theorems and witnesses -/

/-- A renderer on which every fetch fails. -/
def renderNone : Renderer := fun _ => none

/-- Old-site renderer: the root links to two pages whose URLs differ only in
a character (`.` vs `_`) that the key sanitizer collapses. -/
def renderOld : Renderer := fun url =>
  if url = "http://a.b" then some ("R", ["http://a.b/x.y", "http://a.b/x_y"])
  else if url = "http://a.b/x.y" then some ("H1", [])
  else if url = "http://a.b/x_y" then some ("H2", [])
  else none

/-- New-site renderer: the root links to the counterpart of the first page. -/
def renderNew : Renderer := fun url =>
  if url = "http://c.d" then some ("R2", ["http://c.d/x.y"])
  else if url = "http://c.d/x.y" then some ("H3", [])
  else none

/-- Browser evaluation for the collision scenario: each snapshot parses to a
document holding only a distinct title. -/
def parse0 : String → Option Dom := fun html =>
  if html = "H1" then some ⟨"T1", []⟩
  else if html = "H2" then some ⟨"T2", []⟩
  else if html = "H3" then some ⟨"T3", []⟩
  else none

/-- A document whose only content is a `meta[name=keywords]` tag. -/
def domKw (content : String) : Dom :=
  ⟨"", [⟨"meta", [("name", "keywords"), ("content", content)], ""⟩]⟩

/-- Browser evaluation for the field-impact scenario: the two snapshots
differ exactly in the keywords meta tag. -/
def parse1 : String → Option Dom := fun html =>
  if html = "A" then some (domKw "k1")
  else if html = "B" then some (domKw "k2")
  else none

/-- A document with no elements and an empty title. -/
def domEmpty : Dom := ⟨"", []⟩

/-- A document whose `meta[name=description]` tag is present but has no
`content` attribute. -/
def domBad : Dom := ⟨"", [⟨"meta", [("name", "description")], ""⟩]⟩

/-- Old crawl of the collision scenario. -/
def collisionOldCrawl : CrawlState := crawlWebsite renderOld "http://a.b" none 5

/-- New crawl of the collision scenario. -/
def collisionNewCrawl : CrawlState := crawlWebsite renderNew "http://c.d" none 5

/-- The full pipeline run on the collision scenario. -/
def collisionReport : Results :=
  compareWebsitesCore parse0 "http://a.b" "http://c.d" (crawlResult collisionOldCrawl)
    (crawlResult collisionNewCrawl)

/-- The pipeline run on the field-impact scenario: one common page whose only
change is in the `keywords` field. -/
def keywordsReport : Results :=
  compareWebsitesCore parse1 "O" "N" ⟨["Op"], [("Op", "A")]⟩ ⟨["Np"], [("Np", "B")]⟩

/-! ## Generic helper lemmas -/

theorem foldl_inv {α β : Type} (P : β → Prop) (f : β → α → β)
    (hf : ∀ b a, P b → P (f b a)) :
    ∀ (l : List α) (b : β), P b → P (l.foldl f b) := by
  intro l
  induction l with
  | nil => intro b hb; simpa using hb
  | cons x xs ih => intro b hb; simpa using ih (f b x) (hf b x hb)

theorem pfxCheck_self_append : ∀ l t : List Char, pfxCheck l (l ++ t) = true := by
  intro l t
  induction l with
  | nil => rfl
  | cons a as ih => simp [pfxCheck, ih]

theorem firstOcc_self (src p : List Char) : firstOcc src (src ++ p) = some 0 := by
  have hp := pfxCheck_self_append src p
  cases h : src ++ p with
  | nil => rw [h] at hp; simp [firstOcc, hp]
  | cons c t => rw [h] at hp; simp [firstOcc, hp]

theorem substApply_of_noSubstPattern (matched before after : List Char) :
    ∀ r : List Char, noSubstPattern r = true → substApply matched before after r = r := by
  intro r
  induction r with
  | nil => intro _; rfl
  | cons c rest ih =>
    intro h
    cases rest with
    | nil => rfl
    | cons d rest2 =>
      have hmark : isSubstMark c d = false := by
        by_cases hm : isSubstMark c d = true
        · simp [noSubstPattern, hm] at h
        · simpa using hm
      have htail : noSubstPattern (d :: rest2) = true := by
        simpa [noSubstPattern, hmark] using h
      by_cases hc : c = dollarChar
      · have hd1 : ¬ d = dollarChar := by
          intro hd; simp [isSubstMark, hc, hd] at hmark
        have hd2 : ¬ d = ampChar := by
          intro hd; simp [isSubstMark, hc, hd] at hmark
        have hd3 : ¬ d = graveChar := by
          intro hd; simp [isSubstMark, hc, hd] at hmark
        have hd4 : ¬ d = aposChar := by
          intro hd; simp [isSubstMark, hc, hd] at hmark
        simp [substApply, hc, hd1, hd2, hd3, hd4, ih htail]
      · simp [substApply, hc, ih htail]

theorem jsReplaceL_of_noSubstPattern (src p tgt : List Char) (h : noSubstPattern tgt = true) :
    jsReplaceL (src ++ p) src tgt = tgt ++ p := by
  rw [jsReplaceL, firstOcc_self]
  simp [substApply_of_noSubstPattern src [] p tgt h, List.drop_left']

/-! ## Claim C1 — URL rewrite -/

/-- Claim C1, as stated, is false on the code: the reconciler's rewrite is JS
`String.replace`, whose replacement string interprets `$`-substitution
patterns.  With `sourceDomain = "a"`, `targetDomain = "$&"` and suffix
`p = "b"`, the rewrite of `sourceDomain + p` is `"ab"` (the `$&` expands to
the matched text), not `targetDomain + p = "$&b"`. -/
theorem rewrite_dollar_counterexample :
    jsReplace ("a" ++ "b") "a" "$&" = "ab" ∧ ("ab" : String) ≠ "$&" ++ "b" := by
  constructor
  · decide
  · decide

/-- Claim C1 (amended): for every URL of the form `sourceDomain ++ p`, the
reconciler's rewrite (`url.replace(oldDomain, newDomain)`) equals
`targetDomain ++ p` — a pure prefix substitution preserving the path and
query suffix verbatim — provided the target domain contains none of the JS
replacement patterns (a dollar sign followed by a dollar sign, ampersand,
grave accent or apostrophe). -/
theorem rewrite_pure_substitution (sourceDomain targetDomain p : String)
    (h : noSubstPattern targetDomain.data = true) :
    jsReplace (sourceDomain ++ p) sourceDomain targetDomain = targetDomain ++ p := by
  obtain ⟨ls⟩ := sourceDomain
  obtain ⟨lt⟩ := targetDomain
  obtain ⟨lp⟩ := p
  exact congrArg String.mk (jsReplaceL_of_noSubstPattern ls lp lt h)

/-- Witness for `rewrite_pure_substitution` at concrete domains. -/
theorem rewrite_pure_substitution_witness :
    noSubstPattern ("http://c.d" : String).data = true ∧
    jsReplace ("http://a.b" ++ "/about?q=1") "http://a.b" "http://c.d" =
      "http://c.d" ++ "/about?q=1" :=
  ⟨by decide, rewrite_pure_substitution "http://a.b" "http://c.d" "/about?q=1" (by decide)⟩

/-! ## Crawl invariants -/

theorem crawlGuard_false_parts {baseUrl : String} {maxPages : Option Nat} {s : CrawlState}
    {url : String} (hg : crawlGuard baseUrl maxPages s url = false) :
    s.visited.contains url = false ∧ jsStartsWith url baseUrl = true ∧
      budgetExceeded maxPages s.pageCount = false := by
  have h := hg
  simp only [crawlGuard, Bool.or_eq_false_iff] at h
  exact ⟨h.1.1, by simpa using h.1.2, h.2⟩

theorem crawl_scoped_aux (render : Renderer) (baseUrl : String) (maxPages : Option Nat) :
    ∀ (fuel : Nat) (s : CrawlState) (url : String),
      (∀ u ∈ s.visited, jsStartsWith u baseUrl = true) →
      ∀ u ∈ (crawlPage render baseUrl maxPages fuel s url).visited,
        jsStartsWith u baseUrl = true := by
  intro fuel
  induction fuel with
  | zero => intro s url h; simpa [crawlPage] using h
  | succ fuel ih =>
    intro s url h
    simp only [crawlPage]
    split
    · exact h
    · rename_i hgne
      have hg : crawlGuard baseUrl maxPages s url = false := by
        cases hb : crawlGuard baseUrl maxPages s url
        · rfl
        · exact absurd hb hgne
      obtain ⟨-, hpre, -⟩ := crawlGuard_false_parts hg
      have h1 : ∀ u ∈ s.visited ++ [url], jsStartsWith u baseUrl = true := by
        intro u hu
        rcases List.mem_append.mp hu with h2 | h2
        · exact h u h2
        · rcases List.mem_singleton.mp h2 with rfl
          exact hpre
      split
      · exact h1
      · rename_i html links _
        have key : ∀ (l : List String) (st : CrawlState),
            (∀ u ∈ st.visited, jsStartsWith u baseUrl = true) →
            ∀ u ∈ (l.foldl
                (fun st u =>
                  if !(st.visited.contains u) && !(budgetExceeded maxPages st.pageCount) then
                    crawlPage render baseUrl maxPages fuel st u
                  else st) st).visited,
              jsStartsWith u baseUrl = true := by
          intro l
          induction l with
          | nil => intro st hst; simpa using hst
          | cons x xs ihl =>
            intro st hst
            simp only [List.foldl_cons]
            refine ihl _ ?_
            split
            · exact ih st x hst
            · exact hst
        exact key _ _ h1

/-- Claim C2: every URL that a crawl adds to its visited set has `baseUrl`
as a string prefix, at every point of the traversal: any session state whose
visited set is `baseUrl`-scoped remains so after any `crawlPage` call (in
either variant, with or without a page budget). -/
theorem crawl_visited_scoped (render : Renderer) (baseUrl : String) (maxPages : Option Nat)
    (fuel : Nat) (s : CrawlState) (url : String)
    (h : s.visited.all (fun u => jsStartsWith u baseUrl) = true) :
    (crawlPage render baseUrl maxPages fuel s url).visited.all
      (fun u => jsStartsWith u baseUrl) = true := by
  simp only [List.all_eq_true] at h ⊢
  exact crawl_scoped_aux render baseUrl maxPages fuel s url h

/-- Witness for `crawl_visited_scoped` on a concrete three-page crawl. -/
theorem crawl_visited_scoped_witness :
    initialCrawlState.visited.all (fun u => jsStartsWith u "http://a.b") = true ∧
    (crawlPage renderOld "http://a.b" none 3 initialCrawlState "http://a.b").visited.all
      (fun u => jsStartsWith u "http://a.b") = true :=
  ⟨by decide,
   crawl_visited_scoped renderOld "http://a.b" none 3 initialCrawlState "http://a.b" (by decide)⟩

theorem crawl_budget_aux (render : Renderer) (baseUrl : String) (m : Nat) :
    ∀ (fuel : Nat) (s : CrawlState) (url : String),
      s.pageCount = s.visited.length → s.visited.length ≤ m →
      (crawlPage render baseUrl (some m) fuel s url).pageCount =
          (crawlPage render baseUrl (some m) fuel s url).visited.length ∧
        (crawlPage render baseUrl (some m) fuel s url).visited.length ≤ m := by
  intro fuel
  induction fuel with
  | zero =>
    intro s url h1 h2
    simp only [crawlPage]
    exact ⟨h1, h2⟩
  | succ fuel ih =>
    intro s url h1 h2
    simp only [crawlPage]
    split
    · exact ⟨h1, h2⟩
    · rename_i hgne
      have hg : crawlGuard baseUrl (some m) s url = false := by
        cases hb : crawlGuard baseUrl (some m) s url
        · rfl
        · exact absurd hb hgne
      obtain ⟨-, -, hbud⟩ := crawlGuard_false_parts hg
      have hlt : s.pageCount < m := by
        by_contra hle
        have hle' : m ≤ s.pageCount := by omega
        simp [budgetExceeded, hle'] at hbud
      have h1' : s.pageCount + 1 = (s.visited ++ [url]).length := by
        simp [h1]
      have h2' : (s.visited ++ [url]).length ≤ m := by
        simp only [List.length_append, List.length_cons, List.length_nil]
        omega
      split
      · exact ⟨h1', h2'⟩
      · rename_i html links _
        have key : ∀ (l : List String) (st : CrawlState),
            st.pageCount = st.visited.length → st.visited.length ≤ m →
            (l.foldl (fun st u =>
                if !(st.visited.contains u) && !(budgetExceeded (some m) st.pageCount) then
                  crawlPage render baseUrl (some m) fuel st u
                else st) st).pageCount =
              (l.foldl (fun st u =>
                if !(st.visited.contains u) && !(budgetExceeded (some m) st.pageCount) then
                  crawlPage render baseUrl (some m) fuel st u
                else st) st).visited.length ∧
            (l.foldl (fun st u =>
                if !(st.visited.contains u) && !(budgetExceeded (some m) st.pageCount) then
                  crawlPage render baseUrl (some m) fuel st u
                else st) st).visited.length ≤ m := by
          intro l
          induction l with
          | nil => intro st ha hb; exact ⟨ha, hb⟩
          | cons x xs ihl =>
            intro st ha hb
            simp only [List.foldl_cons]
            refine ihl _ ?_ ?_
            · split
              · exact (ih st x ha hb).1
              · exact ha
            · split
              · exact (ih st x ha hb).2
              · exact hb
        exact key _ _ h1' h2'

theorem crawlPage_budget_zero (render : Renderer) (baseUrl : String) :
    ∀ (fuel : Nat) (s : CrawlState) (url : String),
      crawlPage render baseUrl (some 0) fuel s url = s := by
  intro fuel s url
  cases fuel with
  | zero => rfl
  | succ f =>
    have hg : crawlGuard baseUrl (some 0) s url = true := by
      simp [crawlGuard, budgetExceeded]
    simp [crawlPage, hg]

/-- Claim C3: with a configured page budget `m`, the visited set never
exceeds `m` entries at any point of the traversal (any state satisfying the
session invariant keeps `|visited| ≤ m` after any `crawlPage` call), and a
budget of `0` leaves the crawl result completely empty: no visited URLs, no
discovered URLs, no snapshots. -/
theorem crawl_budget_bound (render : Renderer) (baseUrl : String) (m fuel : Nat)
    (s : CrawlState) (url : String)
    (h1 : s.pageCount = s.visited.length) (h2 : s.visited.length ≤ m) :
    (crawlPage render baseUrl (some m) fuel s url).visited.length ≤ m ∧
      (crawlWebsite render baseUrl (some 0) fuel).visited = [] ∧
      (crawlWebsite render baseUrl (some 0) fuel).allUrls = [] ∧
      (crawlWebsite render baseUrl (some 0) fuel).snapshots = [] := by
  refine ⟨(crawl_budget_aux render baseUrl m fuel s url h1 h2).2, ?_, ?_, ?_⟩ <;>
    simp [crawlWebsite, crawlPage_budget_zero, initialCrawlState]

/-- Witness for `crawl_budget_bound` at a concrete budget. -/
theorem crawl_budget_bound_witness :
    (initialCrawlState.pageCount = initialCrawlState.visited.length ∧
      initialCrawlState.visited.length ≤ 2) ∧
    ((crawlPage renderNone "a" (some 2) 1 initialCrawlState "a").visited.length ≤ 2 ∧
      (crawlWebsite renderNone "a" (some 0) 1).visited = [] ∧
      (crawlWebsite renderNone "a" (some 0) 1).allUrls = [] ∧
      (crawlWebsite renderNone "a" (some 0) 1).snapshots = []) :=
  ⟨⟨rfl, by decide⟩, crawl_budget_bound renderNone "a" 2 1 initialCrawlState "a" rfl (by decide)⟩

/-- Claim C9: a per-page render failure is caught locally.  When rendering
`url` fails on an unvisited, in-scope, in-budget state, the crawl step
returns with `url` added to the visited set and the page count bumped, and
everything else — snapshots, discovered URLs — unchanged: no snapshot is
stored for the failing URL and none of its links are added.  Moreover a
retry of the same URL on the resulting state is a no-op, so the URL is never
retried within the session. -/
theorem crawl_failure_locality (render : Renderer) (baseUrl : String) (maxPages : Option Nat)
    (fuel : Nat) (s : CrawlState) (url : String)
    (hfail : render url = none)
    (hvis : s.visited.contains url = false)
    (hpre : jsStartsWith url baseUrl = true)
    (hbud : budgetExceeded maxPages s.pageCount = false) :
    crawlPage render baseUrl maxPages (fuel + 1) s url =
        { s with visited := s.visited ++ [url], pageCount := s.pageCount + 1 } ∧
      crawlPage render baseUrl maxPages fuel
          { s with visited := s.visited ++ [url], pageCount := s.pageCount + 1 } url =
        { s with visited := s.visited ++ [url], pageCount := s.pageCount + 1 } := by
  have hvis' : url ∉ s.visited := by simpa using hvis
  have hg : crawlGuard baseUrl maxPages s url = false := by
    simp [crawlGuard, hvis', hpre, hbud]
  constructor
  · simp [crawlPage, hg, hfail]
  · cases fuel with
    | zero => rfl
    | succ f =>
      have hg2 : crawlGuard baseUrl maxPages
          { s with visited := s.visited ++ [url], pageCount := s.pageCount + 1 } url = true := by
        simp [crawlGuard]
      simp [crawlPage, hg2]

/-- Witness for `crawl_failure_locality` on a failing renderer. -/
theorem crawl_failure_locality_witness :
    (renderNone "ab" = none ∧ initialCrawlState.visited.contains "ab" = false ∧
      jsStartsWith "ab" "a" = true ∧ budgetExceeded none initialCrawlState.pageCount = false) ∧
    (crawlPage renderNone "a" none 1 initialCrawlState "ab" = (⟨[], ["ab"], [], 1⟩ : CrawlState) ∧
      crawlPage renderNone "a" none 0 (⟨[], ["ab"], [], 1⟩ : CrawlState) "ab" =
        (⟨[], ["ab"], [], 1⟩ : CrawlState)) :=
  ⟨⟨rfl, by decide, by decide, rfl⟩,
   crawl_failure_locality renderNone "a" none 0 initialCrawlState "ab" rfl (by decide)
     (by decide) rfl⟩

/-! ## Field differ symmetry (C7) -/

theorem compareFieldStep_swap (A B : FieldRecord) (acc : List FieldChange) (f : String) :
    compareFieldStep B A (acc.map swapChange) f = (compareFieldStep A B acc f).map swapChange := by
  unfold compareFieldStep
  by_cases h : getProp A f = getProp B f
  · simp [h]
  · simp [h, Ne.symm h, swapChange]

theorem compare_foldl_swap (A B : FieldRecord) :
    ∀ (fields : List String) (acc : List FieldChange),
      fields.foldl (compareFieldStep B A) (acc.map swapChange) =
        (fields.foldl (compareFieldStep A B) acc).map swapChange := by
  intro fields
  induction fields with
  | nil => intro acc; simp
  | cons f fs ih =>
    intro acc
    simp only [List.foldl_cons, compareFieldStep_swap]
    exact ih _

/-- Claim C7: the field differ is symmetric under swapping its record
arguments: `compare(B, A)` produces exactly the changes of `compare(A, B)`
with `old` and `new` swapped — hence change lists of equal length over the
same fields.  This holds for any field list, so for both the full and the
simple variant of `comparePageInfo`. -/
theorem compare_swap_symmetric (fields : List String) (A B : FieldRecord) (url : String) :
    (comparePageInfo fields B A url).changes =
        (comparePageInfo fields A B url).changes.map swapChange ∧
      (comparePageInfo fields B A url).changes.length =
        (comparePageInfo fields A B url).changes.length ∧
      (comparePageInfo fields B A url).changes.map FieldChange.field =
        (comparePageInfo fields A B url).changes.map FieldChange.field := by
  have h1 : (comparePageInfo fields B A url).changes =
      (comparePageInfo fields A B url).changes.map swapChange := by
    have h0 := compare_foldl_swap A B fields []
    simpa [comparePageInfo] using h0
  refine ⟨h1, ?_, ?_⟩
  · rw [h1, List.length_map]
  · rw [h1, List.map_map]
    rw [show FieldChange.field ∘ swapChange = FieldChange.field from funext fun c => rfl]

/-! ## Field extraction (C4, C5) -/

theorem lookup_map_schema (d : Dom) :
    ∀ (schema : List (String × FieldKind)) (n : String) (k : FieldKind),
      (n, k) ∈ schema → (schema.map Prod.fst).Nodup →
      (schema.map (fun p => (p.1, evalField d p.2))).lookup n = some (evalField d k) := by
  intro schema
  induction schema with
  | nil => intro n k h _; cases h
  | cons p rest ih =>
    intro n k hmem hnd
    obtain ⟨m, km⟩ := p
    rcases List.mem_cons.mp hmem with heq | htail
    · injection heq with h1 h2
      subst h1
      subst h2
      simp [List.lookup]
    · have hparts := hnd
      simp only [List.map_cons, List.nodup_cons] at hparts
      have hnm : n ≠ m := by
        intro he
        apply hparts.1
        rw [← he]
        exact List.mem_map_of_mem Prod.fst htail
      have hbe : (n == m) = false := by
        simp [hnm]
      simpa [List.lookup, hbe] using ih n k htail hparts.2

theorem evalField_absent (d : Dom) (k : FieldKind) (h : tagAbsent d k) :
    evalField d k = some "" := by
  cases k with
  | titleK => simpa [evalField] using h
  | metaK nm =>
    have h' : queryMeta d nm = none := h
    simp [evalField, getMetaContent, h']
  | textK sel =>
    have h' : queryTag d sel = none := h
    simp [evalField, getTextContent, textValue, h']
  | mainK =>
    obtain ⟨h1, h2⟩ := h
    simp [evalField, jsOr, textValue, h1, h2]

/-- Claim C4 (amended): extraction is total in the sense of the code's two
branches — an internal extraction fault (`none` input) yields the all-empty
record, and every field whose queried tag is absent from the document is the
empty string.  (As stated the claim fails: a present meta tag without a
`content` attribute yields `null`, see the counterexample.) -/
theorem extract_fault_and_absent_defaults (d : Dom) (n : String) (k : FieldKind)
    (hmem : (n, k) ∈ fullSchema) (habs : tagAbsent d k) :
    extractPageInfo none = emptyRecordOf fullSchema ∧
      getProp (extractPageInfo (some d)) n = some (some "") := by
  refine ⟨rfl, ?_⟩
  have hnd : (fullSchema.map Prod.fst).Nodup := by decide
  have h2 := evalField_absent d k habs
  simp only [extractPageInfo, getProp, extractFromDom]
  rw [lookup_map_schema d fullSchema n k hmem hnd, h2]

/-- Witness for `extract_fault_and_absent_defaults` on the empty document. -/
theorem extract_fault_and_absent_defaults_witness :
    (("description", FieldKind.metaK "description") ∈ fullSchema ∧
      tagAbsent domEmpty (FieldKind.metaK "description")) ∧
    (extractPageInfo none = emptyRecordOf fullSchema ∧
      getProp (extractPageInfo (some domEmpty)) "description" = some (some "")) :=
  ⟨⟨by decide, rfl⟩,
   extract_fault_and_absent_defaults domEmpty "description" (FieldKind.metaK "description")
     (by decide) rfl⟩

/-- Claim C4, as stated, is false on the code: a field whose meta tag is
present but whose `content` attribute is absent is extracted as `null`
(`getAttribute` returns `null`), not as the empty string — on `domBad`,
whose only element is `<meta name="description">` without `content`, the
extracted `description` field is the null marker `some none`. -/
theorem extract_missing_attr_counterexample :
    getProp (extractPageInfo (some domBad)) "description" = some none ∧
      (some none : Option (Option String)) ≠ some (some "") := by
  constructor
  · decide
  · decide

theorem recordKeys_extractFromDom (d : Dom) :
    ∀ schema : List (String × FieldKind),
      recordKeys (extractFromDom schema d) = schema.map Prod.fst := by
  intro schema
  induction schema with
  | nil => rfl
  | cons p rest ih =>
    simp only [extractFromDom, recordKeys, List.map_cons] at *
    rw [ih]

theorem recordKeys_emptyRecordOf :
    ∀ schema : List (String × FieldKind),
      recordKeys (emptyRecordOf schema) = schema.map Prod.fst := by
  intro schema
  induction schema with
  | nil => rfl
  | cons p rest ih =>
    simp only [emptyRecordOf, recordKeys, List.map_cons] at *
    rw [ih]

/-- Claim C5, as stated, is false on the code: the full-variant extraction
always produces a 14-field record including `mainContent`, while the Field
Differ compares only 13 fields — `mainContent` is an extra field the differ
never compares. -/
theorem extract_schema_mismatch_counterexample :
    recordKeys (extractPageInfo (some domEmpty)) =
        ["title", "description", "keywords", "h1", "h2", "mainContent", "canonical", "robots",
         "ogTitle", "ogDescription", "ogImage", "twitterCard", "twitterTitle",
         "twitterDescription"] ∧
      "mainContent" ∈ recordKeys (extractPageInfo (some domEmpty)) ∧
      "mainContent" ∉ fullCompareFields ∧
      (recordKeys (extractPageInfo (some domEmpty))).length = 14 ∧
      fullCompareFields.length = 13 := by
  decide

/-- Claim C5 (amended): every record produced by extraction has exactly its
variant's extraction-schema keys, in order, on both the success and the
fault branch — 14 fields in the full variant, 9 in the reduced variant.  In
the reduced variant these are exactly the fields the differ compares; in the
full variant the differ compares all of them except the extra
`mainContent`. -/
theorem extract_schema_fields :
    (∀ r : Option Dom, recordKeys (extractPageInfo r) = fullSchema.map Prod.fst) ∧
      (∀ r : Option Dom, recordKeys (simpleExtractPageInfo r) = simpleSchema.map Prod.fst) ∧
      (fullSchema.map Prod.fst).erase "mainContent" = fullCompareFields ∧
      simpleSchema.map Prod.fst = simpleCompareFields := by
  refine ⟨?_, ?_, by decide, by decide⟩
  · intro r
    cases r with
    | none => exact recordKeys_emptyRecordOf fullSchema
    | some d => exact recordKeys_extractFromDom d fullSchema
  · intro r
    cases r with
    | none => exact recordKeys_emptyRecordOf simpleSchema
    | some d => exact recordKeys_extractFromDom d simpleSchema

/-! ## Report aggregation (C6, C8) -/

theorem compare_self_foldl (A : FieldRecord) :
    ∀ (fields : List String) (acc : List FieldChange),
      fields.foldl (compareFieldStep A A) acc = acc := by
  intro fields
  induction fields with
  | nil => intro acc; rfl
  | cons f fs ih =>
    intro acc
    have hstep : compareFieldStep A A acc f = acc := by
      simp [compareFieldStep]
    simp only [List.foldl_cons, hstep]
    exact ih acc

theorem keepNonEmpty_all (acc : List ComparisonResult) (c : ComparisonResult)
    (h : acc.all (fun r => !r.changes.isEmpty) = true) :
    (keepNonEmpty acc c).all (fun r => !r.changes.isEmpty) = true := by
  unfold keepNonEmpty
  split
  · rename_i hne
    have hc : c.changes.isEmpty = false := by
      cases hx : c.changes with
      | nil => exact absurd hx hne
      | cons a l => rfl
    simp [List.all_append, h, hc]
  · exact h

theorem comparisonStep_all_nonempty (parse : String → Option Dom) (od nd : String)
    (oS nS : List (String × String)) (acc : List ComparisonResult) (u : String)
    (h : acc.all (fun r => !r.changes.isEmpty) = true) :
    (comparisonStep parse od nd oS nS acc u).all (fun r => !r.changes.isEmpty) = true := by
  simp only [comparisonStep]
  split
  · split
    · exact keepNonEmpty_all _ _ h
    · exact h
  · exact h

/-- Claim C8: a ComparisonResult with an empty change list never reaches the
report: comparing equal records yields no changes, every entry of
`pageComparisons` has at least one change, and `summary.pagesWithChanges` is
exactly the length of `pageComparisons`. -/
theorem report_drops_empty_comparisons (parse : String → Option Dom) (od nd : String)
    (oldData newData : CrawlData) (A : FieldRecord) (u2 : String) :
    (comparePageInfo fullCompareFields A A u2).changes = [] ∧
      (compareWebsitesCore parse od nd oldData newData).pageComparisons.all
        (fun r => !r.changes.isEmpty) = true ∧
      (compareWebsitesCore parse od nd oldData newData).summary.pagesWithChanges =
        (compareWebsitesCore parse od nd oldData newData).pageComparisons.length := by
  refine ⟨?_, ?_, rfl⟩
  · exact compare_self_foldl A fullCompareFields []
  · show (comparisonsFor parse od nd oldData.snapshots newData.snapshots
        (oldData.urls.filter (fun u => newData.urls.contains (jsReplace u od nd)))).all
        (fun r => !r.changes.isEmpty) = true
    unfold comparisonsFor
    exact foldl_inv
      (fun acc : List ComparisonResult => acc.all (fun r => !r.changes.isEmpty) = true)
      (comparisonStep parse od nd oldData.snapshots newData.snapshots)
      (fun b a hb =>
        comparisonStep_all_nonempty parse od nd oldData.snapshots newData.snapshots b a hb)
      _ _ rfl

/-- Claim C6 (amended): the aggregated summary counts equal the sizes of the
corresponding collections, and the report carries a per-field impact count —
equal to the number of ComparisonResults containing a change to that field —
only for the three fields `title`, `description` and `canonical`, not for
every tracked field. -/
theorem aggregate_summary_and_impact (parse : String → Option Dom) (od nd : String)
    (oldData newData : CrawlData) :
    (compareWebsitesCore parse od nd oldData newData).summary.oldWebsiteUrls =
        oldData.urls.length ∧
      (compareWebsitesCore parse od nd oldData newData).summary.newWebsiteUrls =
        newData.urls.length ∧
      (compareWebsitesCore parse od nd oldData newData).summary.missingUrls =
        (compareWebsitesCore parse od nd oldData newData).missingUrls.length ∧
      (compareWebsitesCore parse od nd oldData newData).summary.newUrls =
        (compareWebsitesCore parse od nd oldData newData).newUrls.length ∧
      (compareWebsitesCore parse od nd oldData newData).summary.pagesWithChanges =
        (compareWebsitesCore parse od nd oldData newData).pageComparisons.length ∧
      (compareWebsitesCore parse od nd oldData newData).seoImpact =
        [("pagesWithTitleChanges",
           specFieldImpact (compareWebsitesCore parse od nd oldData newData).pageComparisons
             "title"),
         ("pagesWithDescriptionChanges",
           specFieldImpact (compareWebsitesCore parse od nd oldData newData).pageComparisons
             "description"),
         ("pagesWithCanonicalChanges",
           specFieldImpact (compareWebsitesCore parse od nd oldData newData).pageComparisons
             "canonical")] := by
  refine ⟨rfl, rfl, rfl, rfl, rfl, ?_⟩
  show seoImpactOf (compareWebsitesCore parse od nd oldData newData).pageComparisons = _
  simp [seoImpactOf, specFieldImpact, List.countP_eq_length_filter]

/-- Claim C6, as stated, is false on the code: on a run whose only change is
in the `keywords` field, the number of ComparisonResults containing a
`keywords` change is 1, yet the report's field-impact object holds only the
three counts for title, description and canonical, all 0 — no per-field
count for `keywords` (or any other tracked field) is produced. -/
theorem field_impact_counterexample :
    specFieldImpact keywordsReport.pageComparisons "keywords" = 1 ∧
      keywordsReport.pageComparisons =
        [⟨"Np", [⟨"keywords", some (some "k1"), some (some "k2"), "content_change"⟩]⟩] ∧
      keywordsReport.seoImpact =
        [("pagesWithTitleChanges", 0), ("pagesWithDescriptionChanges", 0),
         ("pagesWithCanonicalChanges", 0)] := by
  decide

/-! ## Snapshot key collisions (C10) -/

/-- Claim C10: the snapshot key sanitizer is not injective and the crawl
overwrites colliding snapshots.  In the concrete collision crawl, the two
distinct visited URLs `http://a.b/x.y` and `http://a.b/x_y` share the
sanitized key `http___a_b_x_y`; the later page's HTML `"H2"` overwrites the
earlier page's `"H1"` under that key; the snapshots object holds fewer
entries than the visited set; and the report's comparison for
`http://a.b/x.y` is computed from `"H2"` — the other URL's HTML — reporting
old title `"T2"` although that page rendered to `"H1"` with title `"T1"`. -/
theorem snapshot_key_collision :
    ("http://a.b/x.y" : String) ≠ "http://a.b/x_y" ∧
      "http://a.b/x.y" ∈ collisionOldCrawl.visited ∧
      "http://a.b/x_y" ∈ collisionOldCrawl.visited ∧
      sanitizeKey "http://a.b/x.y" = sanitizeKey "http://a.b/x_y" ∧
      collisionOldCrawl.snapshots.length < collisionOldCrawl.visited.length ∧
      renderOld "http://a.b/x.y" = some ("H1", []) ∧
      objGet collisionOldCrawl.snapshots (sanitizeKey "http://a.b/x.y") = some "H2" ∧
      parse0 "H1" = some ⟨"T1", []⟩ ∧ ("T1" : String) ≠ "T2" ∧
      collisionReport.pageComparisons =
        [⟨"http://c.d/x.y",
          [⟨"title", some (some "T2"), some (some "T3"), "content_change"⟩]⟩] := by
  decide
